import Mathlib

/-!
  Verification of the peer-to-peer BitTorrent client and its minimal UDP
  tracker server against their natural-language specification.

  The development shallowly embeds the relevant parts of the source:

  * `src/server.py` — the UDP tracker server (`TrackerStorage`,
    `TorrentData`, `UDPTrackerServerProtocol.handle_connect` /
    `handle_announce`);
  * `src/torrent_client/network/peer_tcp_client.py` — the peer session
    state machine (`PeerTCPClient`);
  * `src/torrent_client/algorithms/torrent_manager.py` — the supervisor's
    startup verification (`TorrentManager._verify_existing_data`).

  Machine integers are embedded as `Nat` (the Python sources unpack all
  wire fields unsigned); byte strings are `List Nat`; Python dicts are
  insertion-ordered association lists; fallible code returns `Except` or
  an explicit outcome type.  The classes `DownloadInfo`, `PieceInfo` and
  `FileStructure` live in repository modules (`torrent_client/models.py`,
  `torrent_client/file_structure.py`) that are not present under `src/`;
  the definitions touching them are modelled from the specification and
  say so in their doc comments.
-/

/-! ## UDP tracker server (`src/server.py`) -/

/-- Dict insertion with Python semantics: overwriting an existing key keeps
its position, a fresh key is appended at the end (insertion order). -/
def dictInsert {K V : Type} [DecidableEq K] (m : List (K × V)) (k : K) (v : V) :
    List (K × V) :=
  if m.any (fun e => e.1 = k) then
    m.map (fun e => if e.1 = k then (k, v) else e)
  else
    m ++ [(k, v)]

/-- Dict lookup: first entry with the key (keys are unique under
`dictInsert`). -/
def dictLookup {K V : Type} [DecidableEq K] (m : List (K × V)) (k : K) : Option V :=
  (m.find? (fun e => decide (e.1 = k))).map (fun e => e.2)

/-- Embeds `TrackerStorage` from `src/server.py`: the map from issued
connection ids to their expiration times (`time.time() + 300` at issue).
Transaction ids are not used by the server flow and are omitted. -/
structure TrackerStorage where
  connectionIds : List (Nat × Nat)
deriving DecidableEq, Inhabited

/-- Embeds `TrackerStorage.add_connection_id`: stores
`expiration_time = now + expiration_duration` under the id. -/
def addConnectionId (st : TrackerStorage) (cid : Nat)
    (expirationDuration : Nat) (now : Nat) : TrackerStorage :=
  { st with connectionIds := dictInsert st.connectionIds cid (now + expirationDuration) }

/-- Embeds `TrackerStorage.remove_connection_id`. -/
def removeConnectionId (st : TrackerStorage) (cid : Nat) : TrackerStorage :=
  { st with connectionIds := st.connectionIds.filter (fun e => decide (e.1 ≠ cid)) }

/-- Embeds `TrackerStorage.is_connection_id_valid`: the id is present and
its expiration time is strictly in the future. -/
def isConnectionIdValid (st : TrackerStorage) (cid : Nat) (now : Nat) : Bool :=
  match dictLookup st.connectionIds cid with
  | some expirationTime => decide (now < expirationTime)
  | none => false

/-- Embeds `TrackerStorage.clean_expired_connection_ids`: drops every id
whose expiration time is not in the future. -/
def cleanExpiredConnectionIds (st : TrackerStorage) (now : Nat) : TrackerStorage :=
  { st with connectionIds := st.connectionIds.filter (fun e => decide (now < e.2)) }

/-- A peer record stored by the tracker: the value
`{'ip': ..., 'port': ..., 'is_seeder': ...}` of `TorrentData.peers`.
The ip is kept as its four IPv4 bytes (the server packs peers as
`!4sH`; IPv6 peer lists are a non-goal of the specification). -/
structure PeerRecord where
  ip : List Nat
  port : Nat
  isSeeder : Bool
deriving DecidableEq, Inhabited

/-- Embeds `TorrentData` from `src/server.py`: the per-torrent peer dict
(insertion-ordered, keyed by peer id) and the running seeder/leecher
counts. The counts are `Int` exactly as Python's unbounded ints. -/
structure TorrentData where
  infoHash : List Nat
  peers : List (List Nat × PeerRecord)
  seedersCount : Int
  leechersCount : Int
  interval : Nat
deriving DecidableEq, Inhabited

/-- Embeds `TorrentData.__init__`. -/
def TorrentData.new (infoHash : List Nat) : TorrentData :=
  { infoHash := infoHash, peers := [], seedersCount := 0, leechersCount := 0,
    interval := 1800 }

/-- Embeds the scan in `TorrentData.add_peer` that looks for an existing
peer with the same ip and port, returning its key. -/
def findExistingPeer (peers : List (List Nat × PeerRecord)) (ip : List Nat)
    (port : Nat) : Option (List Nat) :=
  (peers.find? (fun e => decide (e.2.ip = ip ∧ e.2.port = port))).map (fun e => e.1)

/-- Embeds `TorrentData.add_peer`: if a peer with the same (ip, port)
exists, adjust the counts when its seeder flag flips and replace its
record; otherwise insert the new peer and count it. -/
def TorrentData.addPeer (td : TorrentData) (peerId : List Nat) (ip : List Nat)
    (port : Nat) (isSeeder : Bool) : TorrentData :=
  match findExistingPeer td.peers ip port with
  | some existing =>
    let oldRec := (dictLookup td.peers existing).getD default
    let counts : Int × Int :=
      if oldRec.isSeeder ∧ ¬ isSeeder then
        (td.seedersCount - 1, td.leechersCount + 1)
      else if ¬ oldRec.isSeeder ∧ isSeeder then
        (td.seedersCount + 1, td.leechersCount - 1)
      else
        (td.seedersCount, td.leechersCount)
    { td with
      peers := dictInsert td.peers existing { ip := ip, port := port, isSeeder := isSeeder },
      seedersCount := counts.1, leechersCount := counts.2 }
  | none =>
    { td with
      peers := dictInsert td.peers peerId { ip := ip, port := port, isSeeder := isSeeder },
      seedersCount := if isSeeder then td.seedersCount + 1 else td.seedersCount,
      leechersCount := if isSeeder then td.leechersCount else td.leechersCount + 1 }

/-- An announce request as unpacked by `handle_announce` with
`struct.unpack_from('!QII20s20sQQQIIIIH', data)`: every field is unsigned
(in particular `numWant` is the raw unsigned 32-bit value). -/
structure AnnounceRequest where
  connectionId : Nat
  infoHash : List Nat
  peerId : List Nat
  downloaded : Nat
  left : Nat
  uploaded : Nat
  event : Nat
  ip : Nat
  key : Nat
  numWant : Nat
  port : Nat
deriving DecidableEq, Inhabited

/-- The announce response in the order `handle_announce` packs it:
`!III` action, transaction id, interval, then `!II` leechers and seeders,
then zero or more compact `!4sH` peer entries (ip bytes, port). -/
structure AnnounceResponse where
  action : Nat
  transactionId : Nat
  interval : Nat
  leechers : Int
  seeders : Int
  peerEntries : List (List Nat × Nat)
deriving DecidableEq, Inhabited

/-- Embeds the peer-list construction of `handle_announce`: all stored
peers except the announcing (ip, port) pair itself. -/
def announcePeerPool (td : TorrentData) (addrIp : List Nat) (port : Nat) :
    List PeerRecord :=
  (td.peers.map (fun e => e.2)).filter
    (fun p => decide (¬ (p.ip = addrIp ∧ p.port = port)))

/-- Embeds the `num_to_send` computation of `handle_announce`. `numWant`
was unpacked unsigned, so the source comparison `num_want == -1` is
embedded as the (never-true) comparison of that unsigned value with `-1`
over `Int`. -/
def numToSend (numWant : Nat) (poolSize : Nat) : Nat :=
  if (numWant : Int) = -1 then min 200 poolSize else min numWant poolSize

/-- Embeds the shared prefix of both `handle_announce` branches: get or
create the torrent, compute `is_seeder = (left == 0)` and `add_peer` the
announcing peer. -/
def announceUpdatedTorrent (torrents : List (List Nat × TorrentData))
    (req : AnnounceRequest) (addrIp : List Nat) : TorrentData :=
  ((dictLookup torrents req.infoHash).getD (TorrentData.new req.infoHash)).addPeer
    req.peerId addrIp req.port (req.left = 0)

/-- Embeds the compact peer list of the non-stopped branch: the peer pool
without the announcer, truncated to `num_to_send`, each entry packed as
`!4sH` (first four ip bytes, port). -/
def announceEntries (td : TorrentData) (addrIp : List Nat)
    (port numWant : Nat) : List (List Nat × Nat) :=
  let pool := announcePeerPool td addrIp port
  (pool.take (numToSend numWant pool.length)).map (fun p => (p.ip.take 4, p.port))

/-- Embeds `UDPTrackerServerProtocol.handle_announce`. Returns the
response sent back (`none` when the connection id is invalid and the
datagram is dropped) together with the updated torrent table. The two
source branches (`event == 3` and the rest) share their whole prefix —
torrent creation, `add_peer`, counts, header — verbatim; it is written
once as `announceUpdatedTorrent`. -/
def handleAnnounce (storage : TrackerStorage)
    (torrents : List (List Nat × TorrentData)) (req : AnnounceRequest)
    (transactionId : Nat) (addrIp : List Nat) (now : Nat) :
    Option AnnounceResponse × List (List Nat × TorrentData) :=
  if ¬ isConnectionIdValid storage req.connectionId now then
    (none, torrents)
  else
    let td := announceUpdatedTorrent torrents req addrIp
    let torrents := dictInsert torrents req.infoHash td
    let header : AnnounceResponse :=
      { action := 1, transactionId := transactionId, interval := td.interval,
        leechers := td.leechersCount, seeders := td.seedersCount, peerEntries := [] }
    if req.event = 3 then
      (some header, torrents)
    else
      (some { header with peerEntries := announceEntries td addrIp req.port req.numWant },
        torrents)

/-- Embeds `UDPTrackerServerProtocol.handle_connect`: stores the freshly
drawn connection id with the default 300-second validity and answers with
action 0, the transaction id and the connection id. -/
def handleConnect (storage : TrackerStorage) (cid : Nat) (transactionId : Nat)
    (now : Nat) : TrackerStorage × (Nat × Nat × Nat) :=
  (addConnectionId storage cid 300 now, (0, transactionId, cid))

/-- The storage-mutating events of the running tracker server: a connect
issuing a connection id, and an expiration sweep. Each event carries the
`time.time()` at which it ran. -/
inductive TrackerEvent where
  | connect (cid : Nat)
  | clean
deriving DecidableEq

/-- One event's effect on the connection-id storage. -/
def stepEvent (st : TrackerStorage) (e : Nat × TrackerEvent) : TrackerStorage :=
  match e.2 with
  | TrackerEvent.connect cid => addConnectionId st cid 300 e.1
  | TrackerEvent.clean => cleanExpiredConnectionIds st e.1

/-- Runs a timed event trace from a given storage state. -/
def runTrace (events : List (Nat × TrackerEvent)) (st : TrackerStorage) :
    TrackerStorage :=
  match events with
  | [] => st
  | e :: rest => runTrace rest (stepEvent st e)

/-! ## Peer session (`src/torrent_client/network/peer_tcp_client.py`) -/

/-- Embeds the `MessageType` enum: the recognized one-byte message ids
0–9. The source's `have` is spelled `haveMsg` (keyword). -/
inductive MessageType where
  | choke
  | unchoke
  | interested
  | not_interested
  | haveMsg
  | bitfield
  | request
  | piece
  | cancel
  | port
deriving DecidableEq

/-- Embeds the `MessageType(data[0])` conversion: `some` for the
recognized values 0–9, `none` for every other byte (the source raises
`ValueError`, which `_receive_message` catches). -/
def messageTypeOfNat (n : Nat) : Option MessageType :=
  match n with
  | 0 => some MessageType.choke
  | 1 => some MessageType.unchoke
  | 2 => some MessageType.interested
  | 3 => some MessageType.not_interested
  | 4 => some MessageType.haveMsg
  | 5 => some MessageType.bitfield
  | 6 => some MessageType.request
  | 7 => some MessageType.piece
  | 8 => some MessageType.cancel
  | 9 => some MessageType.port
  | _ => none

/-- Modelled from the spec: `PieceInfo` of the missing
`torrent_client/models.py` — per-piece state: `selected` (user wants it),
`downloaded` (verified on disk), `validating` (hashing in progress), the
20-byte SHA-1 digest, the `blocks_present` bitset and the `owners` set of
peers (peers as opaque ids). -/
structure PieceInfo where
  selected : Bool
  downloaded : Bool
  validating : Bool
  pieceHash : List Nat
  blocksPresent : List Bool
  owners : List Nat
deriving DecidableEq, Inhabited

/-- Modelled from the spec: `DownloadInfo` of the missing
`torrent_client/models.py` — aggregates all pieces, the
`interesting_pieces` set (as a list of indices), `downloaded_piece_count`
and the `complete` flag. `piece_count` is the length of `pieces`. -/
structure DownloadInfo where
  infoHash : List Nat
  pieceLength : Nat
  totalSize : Nat
  pieces : List PieceInfo
  interestingPieces : List Nat
  downloadedPieceCount : Nat
  complete : Bool
deriving DecidableEq, Inhabited

/-- The session state of one `PeerTCPClient`: the four choke/interest
flags, the connected flag, the per-peer rolling counters, the
`piece_owned` bitset, the aggregate `session_statistics` counters and the
shared `DownloadInfo`. -/
structure ClientState where
  peerIdent : Nat
  connected : Bool
  amChoking : Bool
  amInterested : Bool
  peerChoking : Bool
  peerInterested : Bool
  downloadedBytes : Nat
  uploadedBytes : Nat
  statsDownloaded : Nat
  statsUploaded : Nat
  pieceOwned : List Bool
  downloadInfo : DownloadInfo
deriving DecidableEq, Inhabited

/-- Embeds `PeerTCPClient.__init__`'s initial flags: `am_choking = True`,
`am_interested = False`, `peer_choking = True`, `peer_interested = False`,
counters zero, not connected. -/
def initialClientState (peerIdent : Nat) (di : DownloadInfo) : ClientState :=
  { peerIdent := peerIdent, connected := false,
    amChoking := true, amInterested := false,
    peerChoking := true, peerInterested := false,
    downloadedBytes := 0, uploadedBytes := 0,
    statsDownloaded := 0, statsUploaded := 0,
    pieceOwned := List.replicate di.pieces.length false,
    downloadInfo := di }

/-- Embeds the `am_choking` setter: fails when not connected
(`_check_connect`); when the new value differs from the flag, store it and
emit the `choke`/`unchoke` frame; otherwise do nothing. -/
def setAmChoking (s : ClientState) (value : Bool) :
    Except Unit (ClientState × List MessageType) :=
  if ¬ s.connected then Except.error ()
  else if s.amChoking ≠ value then
    Except.ok ({ s with amChoking := value },
      [if value then MessageType.choke else MessageType.unchoke])
  else
    Except.ok (s, [])

/-- Embeds the `am_interested` setter, symmetric to `setAmChoking` with
the `interested`/`not_interested` frames. -/
def setAmInterested (s : ClientState) (value : Bool) :
    Except Unit (ClientState × List MessageType) :=
  if ¬ s.connected then Except.error ()
  else if s.amInterested ≠ value then
    Except.ok ({ s with amInterested := value },
      [if value then MessageType.interested else MessageType.not_interested])
  else
    Except.ok (s, [])

/-- Embeds `PeerTCPClient._check_position_range` as the predicate "does
not raise": the piece index is in range (the `< 0` half is vacuous for an
unsigned-unpacked index), the block lies inside the piece, and the end
offset does not exceed the total size. -/
def checkPositionRange (di : DownloadInfo) (pieceIndex blockBegin blockLength : Nat) :
    Bool :=
  decide (pieceIndex < di.pieces.length) &&
  decide (blockBegin + blockLength ≤ di.pieceLength) &&
  decide (pieceIndex * di.pieceLength + blockBegin + blockLength ≤ di.totalSize)

/-- Embeds `MAX_REQUEST_LENGTH = 2 ** 17`. -/
def maxRequestLength : Nat := 2 ^ 17

/-- Embeds `MAX_MESSAGE_LENGTH = 2 ** 18`. -/
def maxMessageLength : Nat := 2 ^ 18

/-- Outcome of `_handle_requests` on one message: `fatal` when an
exception propagates (dropping the session), `ignored` for a silent
`return`, `reply` carrying the updated session state and the `piece`
message fields sent back. -/
inductive RequestOutcome where
  | fatal
  | ignored
  | reply (s : ClientState) (pieceIndex : Nat) (blockBegin : Nat) (block : List Nat)
deriving DecidableEq

/-- Embeds `PeerTCPClient._handle_requests` (with `_send_block` inlined
for the reply path). `fileRead offset length` stands for
`FileStructure.read`, which is not under `src/` and is passed as an
abstract parameter. Control flow follows the source: position-range check
(raises `IndexError`), then for a `request` the `MAX_REQUEST_LENGTH`
check (raises `ValueError`), then the silent-reject condition, else read
the block, count it uploaded and answer with a `piece` message; a
`cancel` falls through to `pass`. -/
def handleRequests (fileRead : Nat → Nat → List Nat) (s : ClientState)
    (messageId : MessageType) (pieceIndex blockBegin blockLength : Nat) :
    RequestOutcome :=
  if ¬ checkPositionRange s.downloadInfo pieceIndex blockBegin blockLength then
    RequestOutcome.fatal
  else if messageId = MessageType.request then
    if blockLength > maxRequestLength then
      RequestOutcome.fatal
    else if s.amChoking || !s.peerInterested ||
        !(s.downloadInfo.pieces.getD pieceIndex default).downloaded then
      RequestOutcome.ignored
    else
      let block := fileRead (pieceIndex * s.downloadInfo.pieceLength + blockBegin)
        blockLength
      RequestOutcome.reply
        { s with uploadedBytes := s.uploadedBytes + blockLength,
                 statsUploaded := s.statsUploaded + blockLength }
        pieceIndex blockBegin block
  else
    RequestOutcome.ignored

/-- Modelled from the spec: `PieceInfo.mark_downloaded_blocks` of the
missing `torrent_client/models.py` — sets the `blocks_present` bits of
the 16-KiB blocks covered by the received byte range. -/
def markDownloadedBlocks (p : PieceInfo) (blockBegin blockLength : Nat) : PieceInfo :=
  let blockSize := 2 ^ 14
  { p with blocksPresent :=
      (List.range p.blocksPresent.length).map (fun j =>
        p.blocksPresent.getD j false ||
          (decide (blockBegin / blockSize ≤ j) &&
           decide (j ≤ (blockBegin + blockLength - 1) / blockSize))) }

/-- Outcome of `_handle_block`: `fatal` when the position-range check
raises, otherwise the resulting session state and the list of
`(offset, data)` writes issued to the file store. -/
inductive BlockOutcome where
  | fatal
  | done (s : ClientState) (writes : List (Nat × List Nat))
deriving DecidableEq

/-- Embeds `PeerTCPClient._handle_block`: ignore when not interested;
check the position range (raises); ignore empty blocks; under the
file-store lock, ignore when the piece is validating or downloaded,
otherwise count the block on the per-peer and aggregate counters, write
it at `piece_index * piece_length + begin` and mark its blocks present. -/
def handleBlock (s : ClientState) (pieceIndex blockBegin : Nat)
    (blockData : List Nat) : BlockOutcome :=
  if ¬ s.amInterested then BlockOutcome.done s []
  else if ¬ checkPositionRange s.downloadInfo pieceIndex blockBegin blockData.length then
    BlockOutcome.fatal
  else if blockData.length = 0 then BlockOutcome.done s []
  else if (s.downloadInfo.pieces.getD pieceIndex default).validating ||
      (s.downloadInfo.pieces.getD pieceIndex default).downloaded then
    BlockOutcome.done s []
  else
    let piece := s.downloadInfo.pieces.getD pieceIndex default
    let s' :=
      { s with
        downloadedBytes := s.downloadedBytes + blockData.length,
        statsDownloaded := s.statsDownloaded + blockData.length,
        downloadInfo :=
          { s.downloadInfo with
            pieces := s.downloadInfo.pieces.set pieceIndex
              (markDownloadedBlocks piece blockBegin blockData.length) } }
    BlockOutcome.done s'
      [(pieceIndex * s.downloadInfo.pieceLength + blockBegin, blockData)]

/-- Big-endian bits of one byte, most significant first (`bitarray`
semantics with `endian='big'`). -/
def bitsOfByte (b : Nat) : List Bool :=
  (List.range 8).map (fun k => b.testBit (7 - k))

/-- Embeds `bitarray.frombytes`: the concatenated big-endian bits of the
payload bytes. -/
def bitsOfBytes (bs : List Nat) : List Bool :=
  (bs.map bitsOfByte).flatten

/-- Embeds `ceil(piece_count / 8)` on naturals. -/
def ceilDiv8 (n : Nat) : Nat := (n + 7) / 8

/-- Embeds the `owners.add(self._peer)` part of `_mark_as_owner`: sets are
modelled as duplicate-free lists. -/
def markPieceOwner (p : PieceInfo) (peer : Nat) : PieceInfo :=
  { p with owners := if peer ∈ p.owners then p.owners else p.owners ++ [peer] }

/-- Embeds the two state updates of `_mark_as_owner`: set the session's
`piece_owned` bit and add the peer to the piece's `owners` set. -/
def markOwnerState (s : ClientState) (pieceIndex : Nat) : ClientState :=
  { s with
    pieceOwned := s.pieceOwned.set pieceIndex true,
    downloadInfo := { s.downloadInfo with
      pieces := s.downloadInfo.pieces.set pieceIndex
        (markPieceOwner (s.downloadInfo.pieces.getD pieceIndex default) s.peerIdent) } }

/-- Embeds `PeerTCPClient._mark_as_owner`: set the peer's `piece_owned`
bit (raises `IndexError` out of range), add the peer to the piece's
`owners` set, and when the piece is interesting assign
`am_interested = True` through the setter (which checks the connection
and emits `interested` only on a flip). -/
def markAsOwner (s : ClientState) (pieceIndex : Nat) :
    Except Unit (ClientState × List MessageType) :=
  if pieceIndex < s.pieceOwned.length ∧ pieceIndex < s.downloadInfo.pieces.length then
    if pieceIndex ∈ s.downloadInfo.interestingPieces then
      setAmInterested (markOwnerState s pieceIndex) true
    else
      Except.ok (markOwnerState s pieceIndex, [])
  else
    Except.error ()

/-- Embeds the `for i in range(piece_count): if arr[i]: self._mark_as_owner(i)`
loop of the `bitfield` branch of `_handle_haves`, accumulating the frames
emitted by interest flips. -/
def markOwnedLoop (arr : List Bool) (indices : List Nat) (s : ClientState)
    (msgs : List MessageType) : Except Unit (ClientState × List MessageType) :=
  match indices with
  | [] => Except.ok (s, msgs)
  | i :: rest =>
    if arr.getD i false then
      match markAsOwner s i with
      | Except.error e => Except.error e
      | Except.ok (s', ms) => markOwnedLoop arr rest s' (msgs ++ ms)
    else
      markOwnedLoop arr rest s msgs

/-- Embeds the `bitfield` branch of `PeerTCPClient._handle_haves`: the
payload must be exactly `ceil(piece_count/8)` bytes
(`_check_payload_len` raises otherwise); each set bit below `piece_count`
marks the peer as an owner; any set spare bit raises
`ValueError('Spare bits ... must be zero')`. -/
def handleBitfield (s : ClientState) (payload : List Nat) :
    Except Unit (ClientState × List MessageType) :=
  if payload.length ≠ ceilDiv8 s.downloadInfo.pieces.length then Except.error ()
  else
    match markOwnedLoop (bitsOfBytes payload)
        (List.range s.downloadInfo.pieces.length) s [] with
    | Except.error e => Except.error e
    | Except.ok (s', msgs) =>
      if ((bitsOfBytes payload).drop s.downloadInfo.pieces.length).any
          (fun b => b) then
        Except.error ()
      else Except.ok (s', msgs)

/-- Big-endian `!I` value of a byte list (used on exactly four bytes). -/
def u32FromBytes (bs : List Nat) : Nat :=
  bs.foldl (fun acc b => acc * 256 + b) 0

/-- Embeds `PeerTCPClient._receive_message` on an incoming byte stream:
read the 4-byte big-endian length (too short a stream is a transport
error), `0` is a keep-alive returning `none`, a length above
`MAX_MESSAGE_LENGTH` raises, then read `length` bytes; an unrecognized
message id returns `none` (the `ValueError` of `MessageType(data[0])` is
caught), a recognized id returns it with the remaining payload. -/
def receiveMessage (stream : List Nat) :
    Except Unit (Option (MessageType × List Nat)) :=
  if stream.length < 4 then Except.error ()
  else
    let len := u32FromBytes (stream.take 4)
    if len = 0 then Except.ok none
    else if len > maxMessageLength then Except.error ()
    else if stream.length < 4 + len then Except.error ()
    else
      let data := (stream.drop 4).take len
      match messageTypeOfNat (data.headD 0) with
      | none => Except.ok none
      | some mid => Except.ok (some (mid, data.drop 1))

/-- Embeds `PeerTCPClient._send_bitfield`: nothing is sent when
`downloaded_piece_count` is zero; otherwise the payload is the bitarray
`[info.downloaded for info in pieces]`, returned here as the bit sequence
of `arr.tobytes()` — the piece bits padded with zero bits to a byte
boundary. -/
def sendBitfield (di : DownloadInfo) : Option (List Bool) :=
  if di.downloadedPieceCount ≠ 0 then
    let arr := di.pieces.map (fun info => info.downloaded)
    some (arr ++ List.replicate (ceilDiv8 arr.length * 8 - arr.length) false)
  else
    none

/-! ## Startup verification
(`src/torrent_client/algorithms/torrent_manager.py`) -/

/-- Modelled from the spec: `DownloadInfo.get_real_piece_length` of the
missing `torrent_client/models.py` — every piece is `piece_length` bytes
except the last, which is whatever remains of `total_size`. -/
def getRealPieceLength (di : DownloadInfo) (index : Nat) : Nat :=
  min di.pieceLength (di.totalSize - index * di.pieceLength)

/-- Modelled from the spec: `PieceInfo.reset_content` of the missing
`torrent_client/models.py` — the piece goes back to empty: not
downloaded, no blocks present. -/
def resetContent (p : PieceInfo) : PieceInfo :=
  { p with downloaded := false,
           blocksPresent := List.replicate p.blocksPresent.length false }

/-- Modelled from the spec: `PieceInfo.mark_as_downloaded` of the missing
`torrent_client/models.py`. -/
def markAsDownloaded (p : PieceInfo) : PieceInfo :=
  { p with downloaded := true }

/-- The loop-carried state of `_verify_existing_data`: the piece list,
the rebuilt `downloaded_piece_count`, the local `verified_count` and the
local `missing_pieces`. -/
structure VerifyState where
  pieces : List PieceInfo
  downloadedPieceCount : Nat
  verifiedCount : Nat
  missingPieces : List Nat
deriving DecidableEq, Inhabited

/-- Embeds one iteration of the `for index in selected_piece_indices`
loop of `_verify_existing_data`: read `real_piece_length` bytes at the
piece's offset (`fileRead` stands for the missing `FileStructure.read`;
an `OSError` is the same as an empty read); a short read resets the piece
and records it missing; a SHA-1 match (`sha1` passed abstractly) marks it
downloaded and counts it; a mismatch resets and records it. -/
def verifyStep (sha1 : List Nat → List Nat) (fileRead : Nat → Nat → List Nat)
    (di : DownloadInfo) (vs : VerifyState) (index : Nat) : VerifyState :=
  let piece := vs.pieces.getD index default
  let pieceLen := getRealPieceLength di index
  let data := fileRead (index * di.pieceLength) pieceLen
  if data.length ≠ pieceLen then
    { vs with pieces := vs.pieces.set index (resetContent piece),
              missingPieces := vs.missingPieces ++ [index] }
  else if sha1 data = piece.pieceHash then
    { vs with pieces := vs.pieces.set index (markAsDownloaded piece),
              downloadedPieceCount := vs.downloadedPieceCount + 1,
              verifiedCount := vs.verifiedCount + 1 }
  else
    { vs with pieces := vs.pieces.set index (resetContent piece),
              missingPieces := vs.missingPieces ++ [index] }

/-- Embeds `[i for i, piece in enumerate(pieces) if piece.selected]`. -/
def selectedPieceIndices (pieces : List PieceInfo) : List Nat :=
  (List.range pieces.length).filter (fun i => (pieces.getD i default).selected)

/-- Embeds `TorrentManager._verify_existing_data`: with no selected piece,
zero the count, clear `interesting_pieces` and set `complete = False`;
otherwise run the verification loop over the selected indices, store the
missing pieces as the interesting set and set
`complete = (verified_count == len(selected_piece_indices) and verified_count > 0)`. -/
def verifyExistingData (sha1 : List Nat → List Nat)
    (fileRead : Nat → Nat → List Nat) (di : DownloadInfo) : DownloadInfo :=
  let sel := selectedPieceIndices di.pieces
  if sel.isEmpty then
    { di with downloadedPieceCount := 0, complete := false, interestingPieces := [] }
  else
    let vs := sel.foldl (verifyStep sha1 fileRead di)
      { pieces := di.pieces, downloadedPieceCount := 0, verifiedCount := 0,
        missingPieces := [] }
    { di with pieces := vs.pieces,
              downloadedPieceCount := vs.downloadedPieceCount,
              interestingPieces := vs.missingPieces,
              complete := decide (vs.verifiedCount = sel.length ∧ 0 < vs.verifiedCount) }

/-! ## Helper lemmas -/

theorem getD_set_self {α : Type} (l : List α) (i : Nat) (a d : α)
    (h : i < l.length) : (l.set i a).getD i d = a := by
  simp [List.getD_eq_getElem?_getD, List.getElem?_set_self', List.getElem?_eq_getElem h]

theorem getD_set_ne {α : Type} (l : List α) (i j : Nat) (a d : α)
    (h : i ≠ j) : (l.set i a).getD j d = l.getD j d := by
  simp [List.getD_eq_getElem?_getD, List.getElem?_set_ne h]

theorem mem_dictInsert {K V : Type} [DecidableEq K] {m : List (K × V)}
    {k : K} {v : V} {x : K × V} (h : x ∈ dictInsert m k v) :
    x = (k, v) ∨ x ∈ m := by
  unfold dictInsert at h
  split at h
  · obtain ⟨e, he, hx⟩ := List.mem_map.mp h
    by_cases hk : e.1 = k
    · simp [hk] at hx
      exact Or.inl hx.symm
    · simp [hk] at hx
      exact Or.inr (hx ▸ he)
  · rcases List.mem_append.mp h with h' | h'
    · exact Or.inr h'
    · exact Or.inl (by simpa using h')

/-! ## C8 — choke and interest setters -/

/-- C8: on a connected session, assigning `am_choking` or `am_interested`
emits the corresponding choke/unchoke/interested/not-interested frame
exactly when the new value differs from the current flag, and assigning
the value the flag already has changes nothing and emits nothing. -/
theorem c8_setter_frames (s : ClientState) (v : Bool) (hconn : s.connected = true) :
    (v ≠ s.amChoking →
      setAmChoking s v = Except.ok ({ s with amChoking := v },
        [if v then MessageType.choke else MessageType.unchoke])) ∧
    (v = s.amChoking → setAmChoking s v = Except.ok (s, [])) ∧
    (v ≠ s.amInterested →
      setAmInterested s v = Except.ok ({ s with amInterested := v },
        [if v then MessageType.interested else MessageType.not_interested])) ∧
    (v = s.amInterested → setAmInterested s v = Except.ok (s, [])) := by
  refine ⟨fun h => ?_, fun h => ?_, fun h => ?_, fun h => ?_⟩
  · simp [setAmChoking, hconn, Ne.symm h]
  · simp [setAmChoking, hconn, ← h]
  · simp [setAmInterested, hconn, Ne.symm h]
  · simp [setAmInterested, hconn, ← h]

/-- C8 witness: on a concrete connected session with `am_choking = true`,
assigning `false` emits `unchoke`, and re-assigning `false` to the
already-false `am_interested` flag emits nothing. -/
theorem c8_setter_frames_witness :
    (setAmChoking { initialClientState 0 default with connected := true } false =
      Except.ok ({ initialClientState 0 default with connected := true, amChoking := false },
        [MessageType.unchoke])) ∧
    (setAmInterested { initialClientState 0 default with connected := true } false =
      Except.ok ({ initialClientState 0 default with connected := true }, [])) := by
  refine ⟨?_, ?_⟩
  · exact (c8_setter_frames { initialClientState 0 default with connected := true }
      false rfl).1 (by decide)
  · exact (c8_setter_frames { initialClientState 0 default with connected := true }
      false rfl).2.2.2 (by decide)

/-! ## C9 — unknown message ids are silently discarded -/

/-- C9: a correctly framed message (4-byte big-endian length prefix, one
id byte, payload of matching length, within `MAX_MESSAGE_LENGTH`) whose
id byte is not one of the recognized values 0–9 makes `_receive_message`
return `None` — the same non-fatal outcome as a keep-alive, so the
receive loop just continues — rather than a protocol error. -/
theorem c9_unknown_id_ignored (b0 b1 b2 b3 idByte : Nat) (payload : List Nat)
    (hlen : u32FromBytes [b0, b1, b2, b3] = payload.length + 1)
    (hmax : payload.length + 1 ≤ maxMessageLength)
    (hid : messageTypeOfNat idByte = none) :
    receiveMessage ([b0, b1, b2, b3] ++ idByte :: payload) = Except.ok none := by
  have htake : ([b0, b1, b2, b3] ++ idByte :: payload).take 4 = [b0, b1, b2, b3] :=
    List.take_left' rfl
  have hdrop : ([b0, b1, b2, b3] ++ idByte :: payload).drop 4 = idByte :: payload :=
    List.drop_left' rfl
  have hstreamlen : ([b0, b1, b2, b3] ++ idByte :: payload).length =
      4 + (payload.length + 1) := by simp; omega
  unfold receiveMessage
  rw [htake, hdrop, hlen, hstreamlen]
  have h1 : ¬ (4 + (payload.length + 1) < 4) := by omega
  have h2 : ¬ (payload.length + 1 = 0) := by omega
  have h3 : ¬ (payload.length + 1 > maxMessageLength) := by omega
  have h4 : ¬ (4 + (payload.length + 1) < 4 + (payload.length + 1)) := by omega
  simp only [if_neg h1, if_neg h2, if_neg h3, if_neg h4]
  have htake2 : (idByte :: payload).take (payload.length + 1) = idByte :: payload := by
    have : (idByte :: payload).length = payload.length + 1 := rfl
    rw [← this, List.take_length]
  rw [htake2]
  simp [hid]

/-- C9 witness: the concrete frame `00 00 00 01 0A` (length 1, id 10) is
discarded as `None`. -/
theorem c9_unknown_id_ignored_witness :
    receiveMessage ([0, 0, 0, 1] ++ 10 :: []) = Except.ok none :=
  c9_unknown_id_ignored 0 0 0 1 10 [] (by decide) (by decide) (by decide)

/-! ## C10 — bitfield sent after handshake -/

/-- C10: `_send_bitfield` sends a bitfield message precisely when
`downloaded_piece_count` is nonzero, and in the sent payload bit `i` is
set exactly when piece `i` is downloaded. -/
theorem c10_send_bitfield (di : DownloadInfo) :
    ((sendBitfield di).isSome ↔ di.downloadedPieceCount ≠ 0) ∧
    (∀ bits, sendBitfield di = some bits →
      ∀ i, i < di.pieces.length →
        bits.getD i false = (di.pieces.getD i default).downloaded) := by
  constructor
  · constructor
    · intro hs h0
      simp [sendBitfield, h0] at hs
    · intro h0
      simp [sendBitfield, h0]
  · intro bits hbits i hi
    unfold sendBitfield at hbits
    split at hbits
    · have hbits' : bits = di.pieces.map (fun info => info.downloaded) ++
        List.replicate (ceilDiv8 (di.pieces.map (fun info => info.downloaded)).length * 8 -
          (di.pieces.map (fun info => info.downloaded)).length) false := by
        simpa using hbits.symm
      subst hbits'
      have hmaplen : i < (di.pieces.map (fun info => info.downloaded)).length := by
        simpa using hi
      rw [List.getD_append _ _ _ _ hmaplen]
      simp [List.getD_eq_getElem?_getD, List.getElem?_map, List.getElem?_eq_getElem hi,
        List.getD_eq_getElem?_getD]
    · exact absurd hbits (by simp)

/-- A concrete `DownloadInfo` with one downloaded piece out of two, used
by the C10 witness. -/
def c10di : DownloadInfo :=
  { infoHash := [], pieceLength := 4, totalSize := 8,
    pieces := [{ selected := true, downloaded := true, validating := false,
                 pieceHash := [], blocksPresent := [true], owners := [] },
               { selected := true, downloaded := false, validating := false,
                 pieceHash := [], blocksPresent := [false], owners := [] }],
    interestingPieces := [], downloadedPieceCount := 1, complete := false }

/-- C10 witness: `c10di` sends the padded bitfield `10000000`, whose bit 0
matches the downloaded piece 0 and bit 1 the missing piece 1. -/
theorem c10_send_bitfield_witness :
    (sendBitfield c10di).isSome ∧
    ([true, false, false, false, false, false, false, false].getD 0 false =
      (c10di.pieces.getD 0 default).downloaded) ∧
    ([true, false, false, false, false, false, false, false].getD 1 false =
      (c10di.pieces.getD 1 default).downloaded) := by
  refine ⟨?_, ?_, ?_⟩
  · exact (c10_send_bitfield c10di).1.mpr (by decide)
  · exact (c10_send_bitfield c10di).2
      [true, false, false, false, false, false, false, false] (by decide) 0 (by decide)
  · exact (c10_send_bitfield c10di).2
      [true, false, false, false, false, false, false, false] (by decide) 1 (by decide)

/-! ## C4 — duplicate blocks are ignored -/

/-- C4: when a `piece` message arrives for a piece that is validating or
already downloaded, `_handle_block` leaves the whole session state
unchanged and issues no file-store write — so `blocks_present` and both
download counters are untouched. -/
theorem c4_duplicate_block_ignored (s : ClientState) (pieceIndex blockBegin : Nat)
    (blockData : List Nat)
    (hrange : checkPositionRange s.downloadInfo pieceIndex blockBegin
      blockData.length = true)
    (hdup : (s.downloadInfo.pieces.getD pieceIndex default).validating = true ∨
      (s.downloadInfo.pieces.getD pieceIndex default).downloaded = true) :
    handleBlock s pieceIndex blockBegin blockData = BlockOutcome.done s [] := by
  unfold handleBlock
  split_ifs with h1 h2 h3 <;>
    first
      | rfl
      | (rcases hdup with h | h <;> simp_all)

/-- The concrete session of the C4 witness: connected, interested, its
single piece downloaded. -/
def c4state : ClientState :=
  { initialClientState 0
      { infoHash := [], pieceLength := 4, totalSize := 4,
        pieces := [{ selected := true, downloaded := true, validating := false,
                     pieceHash := [], blocksPresent := [true], owners := [] }],
        interestingPieces := [], downloadedPieceCount := 1, complete := true }
    with connected := true, amInterested := true }

/-- C4 witness: `c4state` receiving an in-range one-byte block for its
already-downloaded piece 0 keeps its state and writes nothing. -/
theorem c4_duplicate_block_ignored_witness :
    checkPositionRange c4state.downloadInfo 0 0 [9].length = true ∧
    handleBlock c4state 0 0 [9] = BlockOutcome.done c4state [] := by
  refine ⟨by decide, ?_⟩
  exact c4_duplicate_block_ignored c4state 0 0 [9] (by decide) (Or.inr (by decide))

/-! ## C2 — handling of request messages -/

/-- The concrete session of the C2 counterexample: connected and choking,
with one downloaded piece of length `2^18`. -/
def c2state : ClientState :=
  { initialClientState 0
      { infoHash := [], pieceLength := 2 ^ 18, totalSize := 2 ^ 18,
        pieces := [{ selected := true, downloaded := true, validating := false,
                     pieceHash := [], blocksPresent := [true], owners := [] }],
        interestingPieces := [], downloadedPieceCount := 1, complete := true }
    with connected := true }

/-- C2 counterexample: an in-range request of `2^17 + 1` bytes arriving
while we are choking is answered with a raised `ValueError` that drops the
session (`fatal`), not with the silent rejection the claim states for the
`length > 2^17` case. -/
theorem c2_oversize_request_is_fatal :
    checkPositionRange c2state.downloadInfo 0 0 131073 = true ∧
    c2state.amChoking = true ∧
    handleRequests (fun _ _ => []) c2state MessageType.request 0 0 131073 =
      RequestOutcome.fatal ∧
    RequestOutcome.fatal ≠ RequestOutcome.ignored := by
  refine ⟨by decide, by decide, by decide, by decide⟩

/-- C2 (amended): for an in-range request, a length above `2^17` raises a
protocol error that drops the session; otherwise, if we are choking, or
the peer is not interested, or the piece is not downloaded, the request
is rejected silently; otherwise the block is read from the store and
answered with a `piece` message (counting the bytes uploaded). -/
theorem c2_request_handling (fileRead : Nat → Nat → List Nat) (s : ClientState)
    (pieceIndex blockBegin blockLength : Nat)
    (hrange : checkPositionRange s.downloadInfo pieceIndex blockBegin
      blockLength = true) :
    (blockLength > maxRequestLength →
      handleRequests fileRead s MessageType.request pieceIndex blockBegin
        blockLength = RequestOutcome.fatal) ∧
    (blockLength ≤ maxRequestLength →
      (s.amChoking = true ∨ s.peerInterested = false ∨
          (s.downloadInfo.pieces.getD pieceIndex default).downloaded = false →
        handleRequests fileRead s MessageType.request pieceIndex blockBegin
          blockLength = RequestOutcome.ignored) ∧
      (s.amChoking = false → s.peerInterested = true →
          (s.downloadInfo.pieces.getD pieceIndex default).downloaded = true →
        handleRequests fileRead s MessageType.request pieceIndex blockBegin
          blockLength = RequestOutcome.reply
          { s with uploadedBytes := s.uploadedBytes + blockLength,
                   statsUploaded := s.statsUploaded + blockLength }
          pieceIndex blockBegin
          (fileRead (pieceIndex * s.downloadInfo.pieceLength + blockBegin)
            blockLength))) := by
  refine ⟨fun hbig => ?_, fun hsmall => ⟨fun hrej => ?_, fun hc hp hd => ?_⟩⟩
  · simp [handleRequests, hrange, hbig]
  · have hno : ¬ blockLength > maxRequestLength := by omega
    rcases hrej with h | h | h
    · simp [handleRequests, hrange, hno, h]
    · simp [handleRequests, hrange, hno, h]
    · rw [List.getD_eq_getElem?_getD] at h
      simp [handleRequests, hrange, hno, h]
  · have hno : ¬ blockLength > maxRequestLength := by omega
    rw [List.getD_eq_getElem?_getD] at hd
    simp [handleRequests, hrange, hno, hc, hp, hd]

/-- C2 witness: on the concrete choking session, an in-range request of
acceptable length is silently ignored. -/
theorem c2_request_handling_witness :
    checkPositionRange c2state.downloadInfo 0 0 16384 = true ∧
    handleRequests (fun _ _ => []) c2state MessageType.request 0 0 16384 =
      RequestOutcome.ignored := by
  refine ⟨by decide, ?_⟩
  exact ((c2_request_handling (fun _ _ => []) c2state 0 0 16384 (by decide)).2
    (by decide)).1 (Or.inl (by decide))

/-! ## C7 — stopped announces return no peers -/

/-- C7: an accepted announce with `event = 3` (stopped) is answered with
exactly the header — action 1, the transaction id, the interval and the
leecher and seeder counts of the updated torrent — and no peer entries,
while any other event gets the same header with the compact peer list
appended. -/
theorem c7_stopped_event_no_peers (storage : TrackerStorage)
    (torrents : List (List Nat × TorrentData)) (req : AnnounceRequest)
    (tid : Nat) (addrIp : List Nat) (now : Nat)
    (hvalid : isConnectionIdValid storage req.connectionId now = true) :
    (req.event = 3 →
      (handleAnnounce storage torrents req tid addrIp now).1 =
        some { action := 1, transactionId := tid,
               interval := (announceUpdatedTorrent torrents req addrIp).interval,
               leechers := (announceUpdatedTorrent torrents req addrIp).leechersCount,
               seeders := (announceUpdatedTorrent torrents req addrIp).seedersCount,
               peerEntries := [] }) ∧
    (req.event ≠ 3 →
      (handleAnnounce storage torrents req tid addrIp now).1 =
        some { action := 1, transactionId := tid,
               interval := (announceUpdatedTorrent torrents req addrIp).interval,
               leechers := (announceUpdatedTorrent torrents req addrIp).leechersCount,
               seeders := (announceUpdatedTorrent torrents req addrIp).seedersCount,
               peerEntries := announceEntries (announceUpdatedTorrent torrents req addrIp)
                 addrIp req.port req.numWant }) := by
  constructor
  · intro hev
    simp [handleAnnounce, hvalid, hev]
  · intro hev
    simp [handleAnnounce, hvalid, hev]

/-- C7 witness: a concrete stopped announce on a tracker with one stored
peer and a valid connection id gets the bare header, and the same
announce with `event = 2` gets the peer list appended. -/
theorem c7_stopped_event_no_peers_witness :
    ((handleAnnounce ⟨[(7, 400)]⟩
        [([9], { infoHash := [9],
                 peers := [([1], { ip := [10, 0, 0, 1], port := 100, isSeeder := true })],
                 seedersCount := 1, leechersCount := 0, interval := 1800 })]
        { connectionId := 7, infoHash := [9], peerId := [2], downloaded := 0,
          left := 5, uploaded := 0, event := 3, ip := 0, key := 0, numWant := 50,
          port := 200 } 77 [10, 0, 0, 2] 399).1 =
      some { action := 1, transactionId := 77, interval := 1800, leechers := 1,
             seeders := 1, peerEntries := [] }) ∧
    ((handleAnnounce ⟨[(7, 400)]⟩
        [([9], { infoHash := [9],
                 peers := [([1], { ip := [10, 0, 0, 1], port := 100, isSeeder := true })],
                 seedersCount := 1, leechersCount := 0, interval := 1800 })]
        { connectionId := 7, infoHash := [9], peerId := [2], downloaded := 0,
          left := 5, uploaded := 0, event := 2, ip := 0, key := 0, numWant := 50,
          port := 200 } 77 [10, 0, 0, 2] 399).1 =
      some { action := 1, transactionId := 77, interval := 1800, leechers := 1,
             seeders := 1, peerEntries := [([10, 0, 0, 1], 100)] }) := by
  constructor
  · have h := (c7_stopped_event_no_peers ⟨[(7, 400)]⟩
      [([9], { infoHash := [9],
               peers := [([1], { ip := [10, 0, 0, 1], port := 100, isSeeder := true })],
               seedersCount := 1, leechersCount := 0, interval := 1800 })]
      { connectionId := 7, infoHash := [9], peerId := [2], downloaded := 0,
        left := 5, uploaded := 0, event := 3, ip := 0, key := 0, numWant := 50,
        port := 200 } 77 [10, 0, 0, 2] 399 (by decide)).1 rfl
    rw [h]
    decide
  · have h := (c7_stopped_event_no_peers ⟨[(7, 400)]⟩
      [([9], { infoHash := [9],
               peers := [([1], { ip := [10, 0, 0, 1], port := 100, isSeeder := true })],
               seedersCount := 1, leechersCount := 0, interval := 1800 })]
      { connectionId := 7, infoHash := [9], peerId := [2], downloaded := 0,
        left := 5, uploaded := 0, event := 2, ip := 0, key := 0, numWant := 50,
        port := 200 } 77 [10, 0, 0, 2] 399 (by decide)).2 (by decide)
    rw [h]
    decide

/-! ## C1 — `num_want = −1` and the unsigned unpack -/

/-- The tracker state of the C1 failing input: a valid connection id and
one torrent already holding 201 seeders on distinct ports. -/
def c1torrents : List (List Nat × TorrentData) :=
  [([9], { infoHash := [9],
           peers := (List.range 201).map
             (fun k => ([k + 2], { ip := [10, 0, 0, 1], port := k, isSeeder := true })),
           seedersCount := 201, leechersCount := 0, interval := 1800 })]

/-- The C1 failing announce: the wire bytes `FF FF FF FF` of a signed
`num_want = −1`, unpacked unsigned as `4294967295`. -/
def c1req : AnnounceRequest :=
  { connectionId := 7, infoHash := [9], peerId := [1], downloaded := 0,
    left := 5, uploaded := 0, event := 0, ip := 0, key := 0,
    numWant := 4294967295, port := 9999 }

set_option maxRecDepth 4096 in
/-- C1: because `num_want` is unpacked unsigned, the source's
`num_want == -1` branch (which would cap the reply at 200 peers) can
never fire: the wire value −1 becomes `4294967295`, and with 201
available peers the server sends all 201 of them — more than the 200 the
claim (and BEP 15) allow. -/
theorem c1_unsigned_numwant_sends_all_peers :
    numToSend c1req.numWant 201 = 201 ∧
    (Option.map (fun r => r.peerEntries.length)
      (handleAnnounce ⟨[(7, 400)]⟩ c1torrents c1req 77 [10, 0, 0, 2] 399).1 =
      some 201) ∧
    200 < 201 := by
  refine ⟨by decide, by decide, by decide⟩

/-! ## C5 — connection ids accepted by announce are fresh -/

theorem dictLookup_mem {K V : Type} [DecidableEq K] {m : List (K × V)}
    {k : K} {v : V} (h : dictLookup m k = some v) : (k, v) ∈ m := by
  unfold dictLookup at h
  obtain ⟨e, hfind, hv⟩ := Option.map_eq_some'.mp h
  have hmem := List.mem_of_find?_eq_some hfind
  have hk : e.1 = k := by
    have := List.find?_some hfind
    simpa using this
  have : e = (k, v) := by
    cases e
    simp_all
  exact this ▸ hmem

theorem runTrace_connectionIds_issued (evs : List (Nat × TrackerEvent)) :
    ∀ (st : TrackerStorage) (cid exp : Nat),
    (cid, exp) ∈ (runTrace evs st).connectionIds →
    (cid, exp) ∈ st.connectionIds ∨
      ∃ t0, (t0, TrackerEvent.connect cid) ∈ evs ∧ exp = t0 + 300 := by
  induction evs with
  | nil => intro st cid exp h; exact Or.inl h
  | cons e rest ih =>
    intro st cid exp h
    rcases ih (stepEvent st e) cid exp h with h' | ⟨t0, hmem, hexp⟩
    · obtain ⟨t, ev⟩ := e
      cases ev with
      | connect c =>
        rcases mem_dictInsert h' with heq | hin
        · obtain ⟨h1, h2⟩ := Prod.ext_iff.mp heq
          simp only at h1 h2
          subst h1
          exact Or.inr ⟨t, by simp, by omega⟩
        · exact Or.inl hin
      | clean =>
        exact Or.inl (List.mem_filter.mp h').1
    · exact Or.inr ⟨t0, List.mem_cons_of_mem _ hmem, hexp⟩

/-- C5: in every state of the tracker server reachable by a timed event
trace (connects and expiration sweeps, all at or before `now`), a
connection id that `handle_announce` accepts was issued by a connect
strictly less than 300 seconds earlier, and an announce whose connection
id is not valid is dropped without a response and without touching the
torrent table. -/
theorem c5_connection_id_freshness (evs : List (Nat × TrackerEvent)) (now : Nat)
    (hpast : ∀ e ∈ evs, e.1 ≤ now)
    (torrents : List (List Nat × TorrentData)) (req : AnnounceRequest)
    (tid : Nat) (addrIp : List Nat) :
    (isConnectionIdValid (runTrace evs ⟨[]⟩) req.connectionId now = true →
      ∃ t0, (t0, TrackerEvent.connect req.connectionId) ∈ evs ∧
        t0 ≤ now ∧ now - t0 < 300) ∧
    (isConnectionIdValid (runTrace evs ⟨[]⟩) req.connectionId now = false →
      handleAnnounce (runTrace evs ⟨[]⟩) torrents req tid addrIp now =
        (none, torrents)) := by
  constructor
  · intro hvalid
    unfold isConnectionIdValid at hvalid
    rcases hlook : dictLookup (runTrace evs ⟨[]⟩).connectionIds req.connectionId with
      _ | exp
    · rw [hlook] at hvalid
      simp at hvalid
    · rw [hlook] at hvalid
      have hlt : now < exp := by simpa using hvalid
      have hmem := dictLookup_mem hlook
      rcases runTrace_connectionIds_issued evs ⟨[]⟩ req.connectionId exp hmem with
        h0 | ⟨t0, hc, hexp⟩
      · simp at h0
      · exact ⟨t0, hc, hpast _ hc, by omega⟩
  · intro hinvalid
    simp [handleAnnounce, hinvalid]

/-- C5 witness: after the concrete trace of one connect of id 7 at time
0, an announce carrying id 7 at time 100 is traced back to that connect
(100 seconds, under 300), and at time 100 an announce carrying the
never-issued id 8 gets no response. -/
theorem c5_connection_id_freshness_witness :
    ((isConnectionIdValid (runTrace [(0, TrackerEvent.connect 7)] ⟨[]⟩) 7 100 = true →
      ∃ t0, (t0, TrackerEvent.connect 7) ∈ [(0, TrackerEvent.connect 7)] ∧
        t0 ≤ 100 ∧ 100 - t0 < 300) ∧
    (isConnectionIdValid (runTrace [(0, TrackerEvent.connect 7)] ⟨[]⟩) 7 100 = false →
      handleAnnounce (runTrace [(0, TrackerEvent.connect 7)] ⟨[]⟩) []
        { connectionId := 7, infoHash := [9], peerId := [2], downloaded := 0,
          left := 0, uploaded := 0, event := 0, ip := 0, key := 0, numWant := 50,
          port := 200 } 77 [10, 0, 0, 2] 100 = (none, []))) ∧
    handleAnnounce (runTrace [(0, TrackerEvent.connect 7)] ⟨[]⟩) []
      { connectionId := 8, infoHash := [9], peerId := [2], downloaded := 0,
        left := 0, uploaded := 0, event := 0, ip := 0, key := 0, numWant := 50,
        port := 200 } 77 [10, 0, 0, 2] 100 = (none, []) := by
  constructor
  · exact c5_connection_id_freshness [(0, TrackerEvent.connect 7)] 100
      (by decide) []
      { connectionId := 7, infoHash := [9], peerId := [2], downloaded := 0,
        left := 0, uploaded := 0, event := 0, ip := 0, key := 0, numWant := 50,
        port := 200 } 77 [10, 0, 0, 2]
  · exact (c5_connection_id_freshness [(0, TrackerEvent.connect 7)] 100
      (by decide) []
      { connectionId := 8, infoHash := [9], peerId := [2], downloaded := 0,
        left := 0, uploaded := 0, event := 0, ip := 0, key := 0, numWant := 50,
        port := 200 } 77 [10, 0, 0, 2]).2 (by decide)

/-! ## C6 — bitfield validation and owner marking -/

theorem setAmInterested_spec (s : ClientState) (h : s.connected = true) :
    ∃ s' msgs, setAmInterested s true = Except.ok (s', msgs) ∧
      s'.pieceOwned = s.pieceOwned ∧ s'.downloadInfo = s.downloadInfo ∧
      s'.connected = true := by
  unfold setAmInterested
  rw [if_neg (by simp [h])]
  by_cases hi : s.amInterested ≠ true
  · rw [if_pos hi]
    exact ⟨_, _, rfl, rfl, rfl, h⟩
  · rw [if_neg hi]
    exact ⟨_, _, rfl, rfl, rfl, h⟩

theorem markAsOwner_spec (s : ClientState) (i : Nat) (hconn : s.connected = true)
    (h1 : i < s.pieceOwned.length) (h2 : i < s.downloadInfo.pieces.length) :
    ∃ s' msgs, markAsOwner s i = Except.ok (s', msgs) ∧
      s'.pieceOwned = s.pieceOwned.set i true ∧
      s'.downloadInfo.pieces.length = s.downloadInfo.pieces.length ∧
      s'.connected = true := by
  have hmc : (markOwnerState s i).connected = true := hconn
  have hmo : (markOwnerState s i).pieceOwned = s.pieceOwned.set i true := rfl
  have hml : (markOwnerState s i).downloadInfo.pieces.length =
      s.downloadInfo.pieces.length := by
    simp [markOwnerState]
  unfold markAsOwner
  rw [if_pos ⟨h1, h2⟩]
  by_cases hint : i ∈ s.downloadInfo.interestingPieces
  · rw [if_pos hint]
    obtain ⟨s', msgs, hok, hpo, hdi, hc⟩ := setAmInterested_spec (markOwnerState s i) hmc
    exact ⟨s', msgs, hok, by rw [hpo, hmo], by rw [hdi, hml], hc⟩
  · rw [if_neg hint]
    exact ⟨_, _, rfl, hmo, hml, hmc⟩

theorem markOwnedLoop_spec (arr : List Bool) :
    ∀ (indices : List Nat) (s : ClientState) (msgs : List MessageType),
    s.connected = true →
    (∀ i ∈ indices, i < s.pieceOwned.length ∧ i < s.downloadInfo.pieces.length) →
    ∃ s' msgs', markOwnedLoop arr indices s msgs = Except.ok (s', msgs') ∧
      s'.pieceOwned.length = s.pieceOwned.length ∧
      s'.connected = true ∧
      ∀ j, s'.pieceOwned.getD j false =
        (s.pieceOwned.getD j false ||
          (decide (j ∈ indices) && arr.getD j false)) := by
  intro indices
  induction indices with
  | nil =>
    intro s msgs hconn _
    exact ⟨s, msgs, rfl, rfl, hconn, fun j => by simp⟩
  | cons i rest ih =>
    intro s msgs hconn hbound
    obtain ⟨hi1, hi2⟩ := hbound i (List.mem_cons_self i rest)
    by_cases hbit : arr.getD i false = true
    · obtain ⟨s1, ms, hok, hpo, hlen, hc⟩ := markAsOwner_spec s i hconn hi1 hi2
      have hbound1 : ∀ i' ∈ rest, i' < s1.pieceOwned.length ∧
          i' < s1.downloadInfo.pieces.length := by
        intro i' hi'
        obtain ⟨a, b⟩ := hbound i' (List.mem_cons_of_mem _ hi')
        refine ⟨?_, ?_⟩
        · rw [hpo]
          simpa using a
        · rw [hlen]
          exact b
      obtain ⟨s', msgs', hok', hlen', hc', hbits⟩ := ih s1 (msgs ++ ms) hc hbound1
      refine ⟨s', msgs', ?_, ?_, hc', ?_⟩
      · unfold markOwnedLoop
        rw [hbit, hok]
        simpa using hok'
      · rw [hlen', hpo]
        simp
      · intro j
        rw [hbits j, hpo]
        by_cases hj : j = i
        · subst hj
          rw [getD_set_self _ _ _ _ hi1, hbit]
          simp
        · rw [getD_set_ne _ _ _ _ _ (fun hh => hj hh.symm)]
          by_cases hjr : j ∈ rest <;> simp [List.mem_cons, hj, hjr]
    · have hbit' : arr.getD i false = false := by
        revert hbit
        cases arr.getD i false <;> simp
      obtain ⟨s', msgs', hok', hlen', hc', hbits⟩ := ih s msgs hconn
        (fun i' hi' => hbound i' (List.mem_cons_of_mem _ hi'))
      refine ⟨s', msgs', ?_, hlen', hc', ?_⟩
      · unfold markOwnedLoop
        rw [hbit']
        simpa using hok'
      · intro j
        rw [hbits j]
        by_cases hj : j = i
        · subst hj
          rw [hbit']
          simp
        · by_cases hjr : j ∈ rest <;> simp [List.mem_cons, hj, hjr]

/-- C6: on a connected session whose `piece_owned` bitset matches the
piece count, a bitfield whose payload length differs from
`ceil(piece_count/8)` raises a protocol error, a correctly sized payload
with a set spare bit raises a protocol error, and otherwise the message
is accepted, every set bit below `piece_count` marks the peer as owner of
that piece, the number of owned pieces stays at most `piece_count`, and
every spare bit is zero. -/
theorem c6_bitfield_handling (s : ClientState) (payload : List Nat)
    (hconn : s.connected = true)
    (hplen : s.pieceOwned.length = s.downloadInfo.pieces.length) :
    (payload.length ≠ ceilDiv8 s.downloadInfo.pieces.length →
      handleBitfield s payload = Except.error ()) ∧
    (payload.length = ceilDiv8 s.downloadInfo.pieces.length →
      ((bitsOfBytes payload).drop s.downloadInfo.pieces.length).any
        (fun b => b) = true →
      handleBitfield s payload = Except.error ()) ∧
    (payload.length = ceilDiv8 s.downloadInfo.pieces.length →
      ((bitsOfBytes payload).drop s.downloadInfo.pieces.length).any
        (fun b => b) = false →
      ∃ s' msgs, handleBitfield s payload = Except.ok (s', msgs) ∧
        (∀ i, i < s.downloadInfo.pieces.length →
          (bitsOfBytes payload).getD i false = true →
          s'.pieceOwned.getD i false = true) ∧
        s'.pieceOwned.countP (fun b => b) ≤ s.downloadInfo.pieces.length ∧
        (∀ i, s.downloadInfo.pieces.length ≤ i →
          (bitsOfBytes payload).getD i false = false)) := by
  have hbound : ∀ i ∈ List.range s.downloadInfo.pieces.length,
      i < s.pieceOwned.length ∧ i < s.downloadInfo.pieces.length := by
    intro i hi
    have := List.mem_range.mp hi
    omega
  refine ⟨fun hne => ?_, fun hlen hspare => ?_, fun hlen hspare => ?_⟩
  · unfold handleBitfield
    rw [if_pos hne]
  · unfold handleBitfield
    rw [if_neg (by simp [hlen])]
    obtain ⟨s', msgs', hok, hlen', hc', hbits⟩ :=
      markOwnedLoop_spec (bitsOfBytes payload)
        (List.range s.downloadInfo.pieces.length) s [] hconn hbound
    rw [hok]
    simp [hspare]
  · unfold handleBitfield
    rw [if_neg (by simp [hlen])]
    obtain ⟨s', msgs', hok, hlen', hc', hbits⟩ :=
      markOwnedLoop_spec (bitsOfBytes payload)
        (List.range s.downloadInfo.pieces.length) s [] hconn hbound
    rw [hok]
    refine ⟨s', msgs', by simp [hspare], fun i hi hbit => ?_, ?_, fun i hge => ?_⟩
    · rw [hbits i, hbit]
      simp [List.mem_range, hi]
    · calc s'.pieceOwned.countP (fun b => b) ≤ s'.pieceOwned.length :=
            List.countP_le_length _
        _ = s.downloadInfo.pieces.length := by rw [hlen', hplen]
    · rcases hx : (bitsOfBytes payload)[i]? with _ | x
      · simp [List.getD_eq_getElem?_getD, hx]
      · have hdropx : ((bitsOfBytes payload).drop
            s.downloadInfo.pieces.length)[i - s.downloadInfo.pieces.length]? =
            some x := by
          rw [List.getElem?_drop,
            show s.downloadInfo.pieces.length +
              (i - s.downloadInfo.pieces.length) = i from by omega]
          exact hx
        have hmem := List.getElem?_mem hdropx
        have hxf : x = false := by
          have := List.any_eq_false.mp hspare x hmem
          revert this
          cases x <;> simp
        simp [List.getD_eq_getElem?_getD, hx, hxf]

/-- C6 witness: on a concrete connected one-piece session, the payload
`0x80` is accepted marking piece 0 as owned, while the wrong-length
payload and a spare-bit payload raise protocol errors. -/
theorem c6_bitfield_handling_witness :
    (( [128, 0] : List Nat).length ≠ ceilDiv8
      ({ initialClientState 0
          { infoHash := [], pieceLength := 4, totalSize := 4,
            pieces := [{ selected := false, downloaded := false, validating := false,
                         pieceHash := [], blocksPresent := [false], owners := [] }],
            interestingPieces := [], downloadedPieceCount := 0, complete := false }
        with connected := true } : ClientState).downloadInfo.pieces.length →
      handleBitfield { initialClientState 0
          { infoHash := [], pieceLength := 4, totalSize := 4,
            pieces := [{ selected := false, downloaded := false, validating := false,
                         pieceHash := [], blocksPresent := [false], owners := [] }],
            interestingPieces := [], downloadedPieceCount := 0, complete := false }
        with connected := true } [128, 0] = Except.error ()) ∧
    (∃ s' msgs, handleBitfield { initialClientState 0
          { infoHash := [], pieceLength := 4, totalSize := 4,
            pieces := [{ selected := false, downloaded := false, validating := false,
                         pieceHash := [], blocksPresent := [false], owners := [] }],
            interestingPieces := [], downloadedPieceCount := 0, complete := false }
        with connected := true } [128] = Except.ok (s', msgs) ∧
      s'.pieceOwned.getD 0 false = true) := by
  constructor
  · intro hne
    exact (c6_bitfield_handling _ [128, 0] rfl rfl).1 hne
  · obtain ⟨s', msgs, hok, hbits, hcount, hspare⟩ :=
      (c6_bitfield_handling { initialClientState 0
          { infoHash := [], pieceLength := 4, totalSize := 4,
            pieces := [{ selected := false, downloaded := false, validating := false,
                         pieceHash := [], blocksPresent := [false], owners := [] }],
            interestingPieces := [], downloadedPieceCount := 0, complete := false }
        with connected := true } [128] rfl rfl).2.2 (by decide) (by decide)
    exact ⟨s', msgs, hok, hbits 0 (by decide) (by decide)⟩

/-! ## C3 — `complete` after startup verification -/

/-- The per-piece success condition of `_verify_existing_data`: the read
returned the full `real_piece_length` and the SHA-1 digest matches. -/
def pieceOk (sha1 : List Nat → List Nat) (fileRead : Nat → Nat → List Nat)
    (di : DownloadInfo) (index : Nat) (p : PieceInfo) : Bool :=
  decide ((fileRead (index * di.pieceLength) (getRealPieceLength di index)).length =
    getRealPieceLength di index) &&
  decide (sha1 (fileRead (index * di.pieceLength) (getRealPieceLength di index)) =
    p.pieceHash)

theorem verifyStep_eq (sha1 : List Nat → List Nat) (fileRead : Nat → Nat → List Nat)
    (di : DownloadInfo) (vs : VerifyState) (index : Nat) :
    verifyStep sha1 fileRead di vs index =
      if pieceOk sha1 fileRead di index (vs.pieces.getD index default) then
        { vs with
          pieces := vs.pieces.set index
            (markAsDownloaded (vs.pieces.getD index default)),
          downloadedPieceCount := vs.downloadedPieceCount + 1,
          verifiedCount := vs.verifiedCount + 1 }
      else
        { vs with
          pieces := vs.pieces.set index
            (resetContent (vs.pieces.getD index default)),
          missingPieces := vs.missingPieces ++ [index] } := by
  unfold verifyStep pieceOk
  by_cases h1 : (fileRead (index * di.pieceLength)
      (getRealPieceLength di index)).length = getRealPieceLength di index
  · by_cases h2 : sha1 (fileRead (index * di.pieceLength)
        (getRealPieceLength di index)) = (vs.pieces.getD index default).pieceHash
    · simp [h1, h2]
    · simp [h1, h2]
  · simp [h1]

theorem verifyLoop_spec (sha1 : List Nat → List Nat)
    (fileRead : Nat → Nat → List Nat) (di : DownloadInfo) :
    ∀ (indices : List Nat) (vs : VerifyState),
    indices.Nodup → (∀ i ∈ indices, i < vs.pieces.length) →
    ((indices.foldl (verifyStep sha1 fileRead di) vs).pieces.length =
      vs.pieces.length) ∧
    (∀ j, j ∉ indices →
      (indices.foldl (verifyStep sha1 fileRead di) vs).pieces.getD j default =
        vs.pieces.getD j default) ∧
    (∀ i ∈ indices,
      (indices.foldl (verifyStep sha1 fileRead di) vs).pieces.getD i default =
        (if pieceOk sha1 fileRead di i (vs.pieces.getD i default) then
           markAsDownloaded (vs.pieces.getD i default)
         else resetContent (vs.pieces.getD i default))) ∧
    ((indices.foldl (verifyStep sha1 fileRead di) vs).verifiedCount =
      vs.verifiedCount +
        indices.countP (fun i => pieceOk sha1 fileRead di i
          (vs.pieces.getD i default))) := by
  intro indices
  induction indices with
  | nil =>
    intro vs _ _
    exact ⟨rfl, fun j _ => rfl, by simp, by simp⟩
  | cons i rest ih =>
    intro vs hnd hbound
    have hinotr : i ∉ rest := (List.nodup_cons.mp hnd).1
    have hilt : i < vs.pieces.length := hbound i (List.mem_cons_self i rest)
    have hstep := verifyStep_eq sha1 fileRead di vs i
    have hfold : (i :: rest).foldl (verifyStep sha1 fileRead di) vs =
        rest.foldl (verifyStep sha1 fileRead di) (verifyStep sha1 fileRead di vs i) :=
      List.foldl_cons _ _
    have hp : (verifyStep sha1 fileRead di vs i).pieces =
        vs.pieces.set i
          (if pieceOk sha1 fileRead di i (vs.pieces.getD i default) then
            markAsDownloaded (vs.pieces.getD i default)
          else resetContent (vs.pieces.getD i default)) := by
      rw [hstep]
      by_cases hok : pieceOk sha1 fileRead di i (vs.pieces.getD i default) = true
      · rw [if_pos hok, if_pos hok]
      · rw [if_neg hok, if_neg hok]
    have hv : (verifyStep sha1 fileRead di vs i).verifiedCount =
        vs.verifiedCount +
          (if pieceOk sha1 fileRead di i (vs.pieces.getD i default) then 1 else 0) := by
      rw [hstep]
      by_cases hok : pieceOk sha1 fileRead di i (vs.pieces.getD i default) = true
      · rw [if_pos hok, if_pos hok]
      · rw [if_neg hok, if_neg hok]
        exact (Nat.add_zero _).symm
    have hbound1 : ∀ i' ∈ rest, i' < (verifyStep sha1 fileRead di vs i).pieces.length := by
      intro i' hi'
      rw [hp]
      simpa using hbound i' (List.mem_cons_of_mem _ hi')
    have hgetD : ∀ j, j ≠ i →
        (verifyStep sha1 fileRead di vs i).pieces.getD j default =
          vs.pieces.getD j default := by
      intro j hj
      rw [hp]
      exact getD_set_ne _ _ _ _ _ (fun hh => hj hh.symm)
    obtain ⟨L1, L2, L3, L4⟩ := ih (verifyStep sha1 fileRead di vs i)
      (List.nodup_cons.mp hnd).2 hbound1
    refine ⟨?_, ?_, ?_, ?_⟩
    · rw [hfold, L1, hp]
      simp
    · intro j hj
      rw [hfold, L2 j (fun hh => hj (List.mem_cons_of_mem _ hh)),
        hgetD j (fun hh => hj (hh ▸ List.mem_cons_self i rest))]
    · intro i' hi'
      rcases List.mem_cons.mp hi' with hh | hh
      · subst hh
        rw [hfold, L2 i' hinotr, hp, getD_set_self _ _ _ _ hilt]
      · rw [hfold, L3 i' hh, hgetD i' (fun hhe => hinotr (hhe ▸ hh))]
    · rw [hfold, L4, hv, List.countP_cons]
      have hcong : rest.countP (fun i' => pieceOk sha1 fileRead di i'
            ((verifyStep sha1 fileRead di vs i).pieces.getD i' default)) =
          rest.countP (fun i' => pieceOk sha1 fileRead di i'
            (vs.pieces.getD i' default)) := by
        apply List.countP_congr
        intro i' hi'
        rw [hgetD i' (fun hhe => hinotr (hhe ▸ hi'))]
      rw [hcong]
      by_cases hok : pieceOk sha1 fileRead di i (vs.pieces.getD i default) = true <;>
        simp [hok] <;> omega

/-- C3 (amended): when at least one piece is selected, after
`_verify_existing_data` the `complete` flag is true exactly when every
selected piece is downloaded. (With the empty selection the source sets
`complete = False` unconditionally, see the counterexample.) -/
theorem c3_complete_iff (sha1 : List Nat → List Nat)
    (fileRead : Nat → Nat → List Nat) (di : DownloadInfo)
    (hsel : ∃ p ∈ di.pieces, p.selected = true) :
    ((verifyExistingData sha1 fileRead di).complete = true ↔
      ∀ p ∈ (verifyExistingData sha1 fileRead di).pieces,
        p.selected = true → p.downloaded = true) := by
  obtain ⟨p0, hp0mem, hp0sel⟩ := hsel
  obtain ⟨k, hk, hkp⟩ := List.mem_iff_getElem.mp hp0mem
  have hkD : di.pieces.getD k default = p0 := by
    rw [List.getD_eq_getElem?_getD, List.getElem?_eq_getElem hk, hkp]
    rfl
  have hkmem : k ∈ selectedPieceIndices di.pieces := by
    unfold selectedPieceIndices
    exact List.mem_filter.mpr ⟨List.mem_range.mpr hk, by rw [hkD]; exact hp0sel⟩
  have hne : ¬ (selectedPieceIndices di.pieces).isEmpty = true := by
    cases hse : selectedPieceIndices di.pieces with
    | nil => rw [hse] at hkmem; simp at hkmem
    | cons a l => simp
  have hnd : (selectedPieceIndices di.pieces).Nodup :=
    (List.nodup_range _).filter _
  have hboundS : ∀ i ∈ selectedPieceIndices di.pieces, i < di.pieces.length :=
    fun i hi => List.mem_range.mp (List.mem_filter.mp hi).1
  have hselc : ∀ i ∈ selectedPieceIndices di.pieces,
      (di.pieces.getD i default).selected = true :=
    fun i hi => (List.mem_filter.mp hi).2
  obtain ⟨hL1, hL2, hL3, hL4⟩ := verifyLoop_spec sha1 fileRead di
    (selectedPieceIndices di.pieces)
    { pieces := di.pieces, downloadedPieceCount := 0, verifiedCount := 0,
      missingPieces := [] } hnd hboundS
  simp only [] at hL1 hL2 hL3 hL4
  have hres : verifyExistingData sha1 fileRead di =
      { di with
        pieces := ((selectedPieceIndices di.pieces).foldl
          (verifyStep sha1 fileRead di)
          { pieces := di.pieces, downloadedPieceCount := 0, verifiedCount := 0,
            missingPieces := [] }).pieces,
        downloadedPieceCount := ((selectedPieceIndices di.pieces).foldl
          (verifyStep sha1 fileRead di)
          { pieces := di.pieces, downloadedPieceCount := 0, verifiedCount := 0,
            missingPieces := [] }).downloadedPieceCount,
        interestingPieces := ((selectedPieceIndices di.pieces).foldl
          (verifyStep sha1 fileRead di)
          { pieces := di.pieces, downloadedPieceCount := 0, verifiedCount := 0,
            missingPieces := [] }).missingPieces,
        complete := decide (((selectedPieceIndices di.pieces).foldl
            (verifyStep sha1 fileRead di)
            { pieces := di.pieces, downloadedPieceCount := 0, verifiedCount := 0,
              missingPieces := [] }).verifiedCount =
          (selectedPieceIndices di.pieces).length ∧
          0 < ((selectedPieceIndices di.pieces).foldl
            (verifyStep sha1 fileRead di)
            { pieces := di.pieces, downloadedPieceCount := 0, verifiedCount := 0,
              missingPieces := [] }).verifiedCount) } := by
    simp only [verifyExistingData]
    rw [if_neg hne]
  rw [hres]
  simp only [decide_eq_true_eq]
  constructor
  · rintro ⟨hcount, hpos⟩ q hq hqsel
    rw [hL4] at hcount
    have hall : ∀ i ∈ selectedPieceIndices di.pieces,
        pieceOk sha1 fileRead di i (di.pieces.getD i default) = true := by
      have := List.countP_eq_length.mp (by omega :
        List.countP (fun i => pieceOk sha1 fileRead di i
          (di.pieces.getD i default)) (selectedPieceIndices di.pieces) =
          (selectedPieceIndices di.pieces).length)
      exact this
    obtain ⟨j, hj, hjq⟩ := List.mem_iff_getElem.mp hq
    have hjlen : j < di.pieces.length := by
      rw [hL1] at hj
      exact hj
    have hjD : ((selectedPieceIndices di.pieces).foldl (verifyStep sha1 fileRead di)
        { pieces := di.pieces, downloadedPieceCount := 0, verifiedCount := 0,
          missingPieces := [] }).pieces.getD j default = q := by
      rw [List.getD_eq_getElem?_getD, List.getElem?_eq_getElem hj, hjq]
      rfl
    by_cases hjsel : j ∈ selectedPieceIndices di.pieces
    · have := hL3 j hjsel
      rw [hjD, if_pos (hall j hjsel)] at this
      rw [this]
      rfl
    · have := hL2 j hjsel
      rw [hjD] at this
      exfalso
      apply hjsel
      unfold selectedPieceIndices
      refine List.mem_filter.mpr ⟨List.mem_range.mpr hjlen, ?_⟩
      rw [← this]
      exact hqsel
  · intro hdown
    have hall : ∀ i ∈ selectedPieceIndices di.pieces,
        pieceOk sha1 fileRead di i (di.pieces.getD i default) = true := by
      intro i hi
      have hilen : i < di.pieces.length := hboundS i hi
      have hilen' : i < ((selectedPieceIndices di.pieces).foldl
          (verifyStep sha1 fileRead di)
          { pieces := di.pieces, downloadedPieceCount := 0, verifiedCount := 0,
            missingPieces := [] }).pieces.length := by
        rw [hL1]
        exact hilen
      have hqmem : ((selectedPieceIndices di.pieces).foldl
          (verifyStep sha1 fileRead di)
          { pieces := di.pieces, downloadedPieceCount := 0, verifiedCount := 0,
            missingPieces := [] }).pieces.getD i default ∈
          ((selectedPieceIndices di.pieces).foldl (verifyStep sha1 fileRead di)
            { pieces := di.pieces, downloadedPieceCount := 0, verifiedCount := 0,
              missingPieces := [] }).pieces := by
        rw [List.getD_eq_getElem?_getD, List.getElem?_eq_getElem hilen']
        exact List.getElem_mem hilen'
      have hstep3 := hL3 i hi
      by_contra hnok
      rw [if_neg hnok] at hstep3
      have hqsel : (((selectedPieceIndices di.pieces).foldl
          (verifyStep sha1 fileRead di)
          { pieces := di.pieces, downloadedPieceCount := 0, verifiedCount := 0,
            missingPieces := [] }).pieces.getD i default).selected = true := by
        rw [hstep3]
        exact hselc i hi
      have := hdown _ hqmem hqsel
      rw [hstep3] at this
      simp [resetContent] at this
    constructor
    · rw [hL4]
      have := List.countP_eq_length.mpr hall
      omega
    · rw [hL4]
      have hlenpos : 0 < (selectedPieceIndices di.pieces).length := by
        cases hse : selectedPieceIndices di.pieces with
        | nil => rw [hse] at hkmem; simp at hkmem
        | cons a l => simp
      have := List.countP_eq_length.mpr hall
      omega

/-- The C3 counterexample torrent: no piece at all, so no piece is
selected, while the stale `complete` flag starts out true. -/
def c3di : DownloadInfo :=
  { infoHash := [], pieceLength := 4, totalSize := 4, pieces := [],
    interestingPieces := [], downloadedPieceCount := 3, complete := true }

/-- C3 counterexample: with the empty selection, `_verify_existing_data`
sets `complete = False` although "every selected piece is downloaded"
holds vacuously — so the claimed equivalence fails for the empty
selection. -/
theorem c3_empty_selection_incomplete :
    (verifyExistingData (fun _ => []) (fun _ _ => []) c3di).complete = false ∧
    (∀ p ∈ (verifyExistingData (fun _ => []) (fun _ _ => []) c3di).pieces,
      p.selected = true → p.downloaded = true) := by
  refine ⟨by decide, by decide⟩

/-- The C3 witness torrent: one selected piece whose digest matches. -/
def c3di2 : DownloadInfo :=
  { infoHash := [], pieceLength := 4, totalSize := 4,
    pieces := [{ selected := true, downloaded := false, validating := false,
                 pieceHash := [7], blocksPresent := [false], owners := [] }],
    interestingPieces := [], downloadedPieceCount := 0, complete := false }

/-- C3 witness: on `c3di2` with a reader returning four bytes and a hash
function returning the stored digest, verification marks the piece and
the equivalence holds with both sides true. -/
theorem c3_complete_iff_witness :
    ((verifyExistingData (fun _ => [7]) (fun _ n => List.replicate n 0) c3di2).complete =
      true ↔
      ∀ p ∈ (verifyExistingData (fun _ => [7])
          (fun _ n => List.replicate n 0) c3di2).pieces,
        p.selected = true → p.downloaded = true) ∧
    (verifyExistingData (fun _ => [7]) (fun _ n => List.replicate n 0) c3di2).complete =
      true := by
  refine ⟨?_, by decide⟩
  exact c3_complete_iff (fun _ => [7]) (fun _ n => List.replicate n 0) c3di2
    ⟨{ selected := true, downloaded := false, validating := false,
       pieceHash := [7], blocksPresent := [false], owners := [] },
     by decide, rfl⟩
